import Mathlib

/-!
The package resolute-ollama: embedding client and batch embedding pipeline.

A shallow embedding of `client.go` and `embedding.go`.

* Go's `(value, error)` results are pairs `α × Option Error`; `none` is `nil`.
* Slices are lists (`nil` and the empty slice are both `[]`; the code only
  takes `len`, ranges and appends).
* The `int` counters (`Count`, `Failed`, `Dimensions`) are natural numbers:
  they are lengths or bounded by the number of documents, so they never wrap.
  A `time.Duration` is an integer number of nanoseconds.
* `float64` values are never computed with, only carried: the element type of
  an embedding vector is a type parameter `F`.
* Everything outside the package (HTTP transport, `encoding/json`, the
  document loader, the storage) is a field of `Env`. A collaborator that does
  I/O receives the log of all events that happened before its call, so its
  answer may depend on the whole history of the run (time-outs and context
  cancellation included).
-/

namespace Ollama

/-! ## Data model -/

/-- Go error values built by this package. `cause` is an error value handed
over by a library or collaborator, `api` is
`fmt.Errorf("ollama API error: status=%d body=%s", ...)` and `wrap` is
`fmt.Errorf("<context>: %w", err)`. -/
inductive Error where
  | cause (msg : String)
  | api (status : Int) (body : String)
  | wrap (context : String) (err : Error)
deriving DecidableEq, Repr

/-- The text `err.Error()` of an error value. -/
def Error.message : Error → String
  | .cause msg => msg
  | .api status body => "ollama API error: status=" ++ toString status ++ " body=" ++ body
  | .wrap context err => context ++ ": " ++ err.message

/-- The fields of `transform.Document` that this package reads. -/
structure Document where
  ID : String
  Title : String
  Content : String
deriving DecidableEq, Repr

/-- A `core.DataRef`: the package only writes its `Count`; everything else in
it is kept as `Handle`. -/
structure DataRef where
  Handle : String
  Count : Nat
deriving DecidableEq, Repr

/-- The type `ClientConfig`; `Timeout` is a `time.Duration` in nanoseconds. -/
structure ClientConfig where
  BaseURL : String
  Timeout : Int
deriving DecidableEq, Repr

/-- The `http.Client` of a `Client`, of which only `Timeout` is set. -/
structure HTTPClient where
  Timeout : Int
deriving DecidableEq, Repr

/-- The type `Client`. -/
structure Client where
  baseURL : String
  httpClient : HTTPClient
deriving DecidableEq, Repr

/-- The type `EmbeddingRequest`. -/
structure EmbeddingRequest where
  Model : String
  Prompt : String
deriving DecidableEq, Repr

/-- The type `EmbeddingResponse`. -/
structure EmbeddingResponse (F : Type) where
  Embedding : List F
deriving DecidableEq, Repr

/-- One element of `Models` in the anonymous result struct of `ListModels`. -/
structure ModelEntry where
  Name : String
deriving DecidableEq, Repr

/-- The anonymous result struct of `ListModels`. -/
structure ModelsResponse where
  Models : List ModelEntry
deriving DecidableEq, Repr

/-- An `http.Request` as far as this package builds it. -/
structure Request where
  Method : String
  URL : String
  Header : List (String × String)
  Body : Option String
deriving DecidableEq, Repr

/-- An `http.Response`: the status code and the text its body stream yields. -/
structure Response where
  StatusCode : Int
  Body : String
deriving DecidableEq, Repr

/-- The type `GenerateEmbeddingInput`. -/
structure GenerateEmbeddingInput where
  BaseURL : String
  Model : String
  Document : Document
deriving DecidableEq, Repr

/-- The type `GenerateEmbeddingOutput`. -/
structure GenerateEmbeddingOutput (F : Type) where
  DocumentID : String
  Embedding : List F
  Dimensions : Nat
deriving DecidableEq, Repr

/-- The type `BatchEmbedInput`. -/
structure BatchEmbedInput where
  BaseURL : String
  Model : String
  DocumentsRef : DataRef
deriving DecidableEq, Repr

/-- The type `EmbeddedDocument`. -/
structure EmbeddedDocument (F : Type) where
  Document : Document
  Embedding : List F
  Dimensions : Nat
deriving DecidableEq, Repr

/-- The type `BatchEmbedOutput`. -/
structure BatchEmbedOutput where
  Ref : DataRef
  Count : Nat
  Failed : Nat
deriving DecidableEq, Repr

/-- One observable action of a run, in the order performed.
`GenerateEmbedding` marks the entry into `Client.GenerateEmbedding`, `Do` an
HTTP exchange handed to the transport, `StoreJSON` the data handed to the
storage. -/
inductive Event (F : Type) where
  | LoadDocuments (ref : DataRef)
  | GetStorage
  | GenerateEmbedding (model text : String)
  | Do (client : HTTPClient) (req : Request)
  | StoreJSON (schema : String) (data : List (EmbeddedDocument F))
deriving DecidableEq, Repr

/-- Everything the package calls but does not define. The first argument of
an I/O collaborator is the log of the events before the call. -/
structure Env (F : Type) where
  /-- The call `json.Marshal(reqBody)`. -/
  Marshal : EmbeddingRequest → Except String String
  /-- The call `http.NewRequestWithContext(ctx, method, url, body)`. -/
  NewRequestWithContext : String → String → Option String → Except String Request
  /-- The call `c.httpClient.Do(req)`. -/
  Do : List (Event F) → HTTPClient → Request → Except String Response
  /-- The call `json.NewDecoder(resp.Body).Decode(&result)` on an
  `EmbeddingResponse`. -/
  DecodeEmbedding : String → Except String (EmbeddingResponse F)
  /-- The same call on the result struct of `ListModels`. -/
  DecodeModels : String → Except String ModelsResponse
  /-- The call `transform.LoadDocuments(ctx, ref)`. -/
  LoadDocuments : List (Event F) → DataRef → Except String (List Document)
  /-- The error of `core.GetStorage()`, if any. -/
  GetStorage : List (Event F) → Option String
  /-- The call `storage.StoreJSON(ctx, schema, data)` on the storage obtained. -/
  StoreJSON : List (Event F) → String → List (EmbeddedDocument F) → Except String DataRef
  /-- The constant `SchemaEmbeddedDocument`, declared outside the three files. -/
  SchemaEmbeddedDocument : String

/-! ## client.go -/

/-- The constant `defaultBaseURL`. -/
def defaultBaseURL : String := "http://localhost:11434"

/-- The constant `time.Second`, in nanoseconds. -/
def Second : Int := 1000000000

/-- The constant `http.StatusOK`. -/
def StatusOK : Int := 200

/-- The function `NewClient`. -/
def NewClient (cfg : ClientConfig) : Client :=
  let baseURL := if cfg.BaseURL = "" then defaultBaseURL else cfg.BaseURL
  let timeout := if cfg.Timeout = 0 then 120 * Second else cfg.Timeout
  { baseURL := baseURL, httpClient := { Timeout := timeout } }

/-- The method `req.Header.Set(key, value)`. -/
def Request.HeaderSet (req : Request) (key value : String) : Request :=
  { req with Header := (req.Header.filter fun kv => kv.1 ≠ key) ++ [(key, value)] }

/-- The method `Client.GenerateEmbedding`; returns the result pair and the
log extended by the events of the call. -/
def Client.GenerateEmbedding {F : Type} (env : Env F) (c : Client) (log : List (Event F))
    (model text : String) : (List F × Option Error) × List (Event F) :=
  let log := log ++ [Event.GenerateEmbedding model text]
  let reqBody : EmbeddingRequest := { Model := model, Prompt := text }
  match env.Marshal reqBody with
  | .error err => (([], some (.wrap "marshal request" (.cause err))), log)
  | .ok body =>
    let endpoint := c.baseURL ++ "/api/embeddings"
    match env.NewRequestWithContext "POST" endpoint (some body) with
    | .error err => (([], some (.wrap "create request" (.cause err))), log)
    | .ok req =>
      let req := req.HeaderSet "Content-Type" "application/json"
      match env.Do log c.httpClient req with
      | .error err =>
        (([], some (.wrap "execute request" (.cause err))), log ++ [Event.Do c.httpClient req])
      | .ok resp =>
        let log := log ++ [Event.Do c.httpClient req]
        if resp.StatusCode ≠ StatusOK then
          (([], some (.api resp.StatusCode resp.Body)), log)
        else
          match env.DecodeEmbedding resp.Body with
          | .error err => (([], some (.wrap "decode response" (.cause err))), log)
          | .ok result => ((result.Embedding, none), log)

/-- The method `Client.ListModels`. -/
def Client.ListModels {F : Type} (env : Env F) (c : Client) (log : List (Event F)) :
    (List String × Option Error) × List (Event F) :=
  let endpoint := c.baseURL ++ "/api/tags"
  match env.NewRequestWithContext "GET" endpoint none with
  | .error err => (([], some (.wrap "create request" (.cause err))), log)
  | .ok req =>
    match env.Do log c.httpClient req with
    | .error err =>
      (([], some (.wrap "execute request" (.cause err))), log ++ [Event.Do c.httpClient req])
    | .ok resp =>
      let log := log ++ [Event.Do c.httpClient req]
      if resp.StatusCode ≠ StatusOK then
        (([], some (.api resp.StatusCode resp.Body)), log)
      else
        match env.DecodeModels resp.Body with
        | .error err => (([], some (.wrap "decode response" (.cause err))), log)
        | .ok result =>
          let models := result.Models.foldl (fun models m => models ++ [m.Name]) []
          ((models, none), log)

/-! ## embedding.go -/

/-- The constant `defaultModel`. -/
def defaultModel : String := "nomic-embed-text"

/-- The function `GenerateEmbeddingActivity`. -/
def GenerateEmbeddingActivity {F : Type} (env : Env F) (log : List (Event F))
    (input : GenerateEmbeddingInput) :
    (GenerateEmbeddingOutput F × Option Error) × List (Event F) :=
  let client := NewClient { BaseURL := input.BaseURL, Timeout := 0 }
  let model := if input.Model = "" then defaultModel else input.Model
  let text := if input.Document.Content = "" then input.Document.Title else input.Document.Content
  match client.GenerateEmbedding env log model text with
  | ((_, some err), log) =>
    (({ DocumentID := "", Embedding := [], Dimensions := 0 },
      some (.wrap "generate embedding" err)), log)
  | ((embedding, none), log) =>
    (({ DocumentID := input.Document.ID, Embedding := embedding,
        Dimensions := embedding.length }, none), log)

/-- The variables the loop of `BatchEmbedActivity` updates, and the log. -/
structure LoopState (F : Type) where
  embeddings : List (EmbeddedDocument F)
  failed : Nat
  log : List (Event F)

/-- One iteration of `for _, doc := range docs` in `BatchEmbedActivity`. -/
def BatchEmbedActivity.body {F : Type} (env : Env F) (client : Client) (model : String)
    (s : LoopState F) (doc : Document) : LoopState F :=
  let text := if doc.Content = "" then doc.Title else doc.Content
  if text = "" then
    { s with failed := s.failed + 1 }
  else
    match client.GenerateEmbedding env s.log model text with
    | ((_, some _), log) => { s with failed := s.failed + 1, log := log }
    | ((embedding, none), log) =>
      { embeddings := s.embeddings ++
          [{ Document := doc, Embedding := embedding, Dimensions := embedding.length }],
        failed := s.failed,
        log := log }

/-- The loop `for _, doc := range docs` of `BatchEmbedActivity`. -/
def BatchEmbedActivity.loop {F : Type} (env : Env F) (client : Client) (model : String)
    (s : LoopState F) (docs : List Document) : LoopState F :=
  docs.foldl (BatchEmbedActivity.body env client model) s

/-- The value `BatchEmbedOutput{}`. -/
def BatchEmbedOutput.zero : BatchEmbedOutput :=
  { Ref := { Handle := "", Count := 0 }, Count := 0, Failed := 0 }

/-- The function `BatchEmbedActivity`. -/
def BatchEmbedActivity {F : Type} (env : Env F) (log : List (Event F))
    (input : BatchEmbedInput) : (BatchEmbedOutput × Option Error) × List (Event F) :=
  match env.LoadDocuments log input.DocumentsRef with
  | .error err =>
    ((BatchEmbedOutput.zero, some (.wrap "load documents" (.cause err))),
      log ++ [Event.LoadDocuments input.DocumentsRef])
  | .ok docs =>
    let log := log ++ [Event.LoadDocuments input.DocumentsRef]
    let client := NewClient { BaseURL := input.BaseURL, Timeout := 0 }
    let model := if input.Model = "" then defaultModel else input.Model
    match env.GetStorage log with
    | some err =>
      ((BatchEmbedOutput.zero, some (.wrap "get storage" (.cause err))),
        log ++ [Event.GetStorage])
    | none =>
      let log := log ++ [Event.GetStorage]
      let s := BatchEmbedActivity.loop env client model
        { embeddings := [], failed := 0, log := log } docs
      let log := s.log ++ [Event.StoreJSON env.SchemaEmbeddedDocument s.embeddings]
      match env.StoreJSON s.log env.SchemaEmbeddedDocument s.embeddings with
      | .error err =>
        ((BatchEmbedOutput.zero, some (.wrap "store embeddings" (.cause err))), log)
      | .ok ref =>
        let ref := { ref with Count := s.embeddings.length }
        (({ Ref := ref, Count := s.embeddings.length, Failed := s.failed }, none), log)

/-! ## Concrete environments

Small environments on which the definitions above are evaluated. The
transport, the JSON codec and the collaborators are fixed functions. -/

/-- What `json.Marshal` yields for an `EmbeddingRequest` whose two strings
need no escaping. -/
def marshalPlain (r : EmbeddingRequest) : Except String String :=
  .ok ("\x7b\"model\":\"" ++ r.Model ++ "\",\"prompt\":\"" ++ r.Prompt ++ "\"\x7d")

/-- A request constructor that accepts every method and URL. -/
def newRequestPlain (method url : String) (body : Option String) : Except String Request :=
  .ok { Method := method, URL := url, Header := [], Body := body }

/-- What `Decode` yields on the few bodies the servers below send: the
vector of the `embedding` member, and the zero `EmbeddingResponse` for an
object without members. -/
def decodeEmbeddingTable (body : String) : Except String (EmbeddingResponse Int) :=
  if body = "\x7b\"embedding\":[1,2,3]\x7d" then .ok { Embedding := [1, 2, 3] }
  else if body = "\x7b\"embedding\":[]\x7d" then .ok { Embedding := [] }
  else if body = "\x7b\x7d" then .ok { Embedding := [] }
  else .error "invalid character"

/-- What `Decode` yields on the bodies the servers below send for `/api/tags`. -/
def decodeModelsTable (body : String) : Except String ModelsResponse :=
  if body = "\x7b\"models\":[\x7b\"name\":\"a\"\x7d,\x7b\"name\":\"b\"\x7d]\x7d" then
    .ok { Models := [{ Name := "a" }, { Name := "b" }] }
  else if body = "\x7b\"models\":[]\x7d" then .ok { Models := [] }
  else .error "invalid character"

/-- An environment around a given server, loader answer and storage answers. -/
def fakeEnv (server : List (Event Int) → Request → Except String Response)
    (docs : Except String (List Document)) (storage : Option String)
    (store : List (EmbeddedDocument Int) → Except String DataRef) : Env Int :=
  { Marshal := marshalPlain
    NewRequestWithContext := newRequestPlain
    Do := fun log _ req => server log req
    DecodeEmbedding := decodeEmbeddingTable
    DecodeModels := decodeModelsTable
    LoadDocuments := fun _ _ => docs
    GetStorage := fun _ => storage
    StoreJSON := fun _ _ data => store data
    SchemaEmbeddedDocument := "embedded_document" }

/-- A server that lists two models on a GET, answers 500 to the prompt
`boom` and 200 with a three-element vector to every other request, whatever
happened before. -/
def steadyServer (_ : List (Event Int)) (req : Request) : Except String Response :=
  if req.Method = "GET" then
    .ok { StatusCode := 200,
          Body := "\x7b\"models\":[\x7b\"name\":\"a\"\x7d,\x7b\"name\":\"b\"\x7d]\x7d" }
  else if req.Body = some "\x7b\"model\":\"nomic-embed-text\",\"prompt\":\"boom\"\x7d" then
    .ok { StatusCode := 500, Body := "internal error" }
  else .ok { StatusCode := 200, Body := "\x7b\"embedding\":[1,2,3]\x7d" }

/-- A server that answers 200 with an object without members. -/
def emptyObjectServer (_ : List (Event Int)) (_ : Request) : Except String Response :=
  .ok { StatusCode := 200, Body := "\x7b\x7d" }

/-- A server that answers 200 with an empty vector. -/
def emptyVectorServer (_ : List (Event Int)) (_ : Request) : Except String Response :=
  .ok { StatusCode := 200, Body := "\x7b\"embedding\":[]\x7d" }

/-- A transport whose context is cancelled after the first exchange: the
first request is answered, every later one fails. -/
def cancellingServer (log : List (Event Int)) (_ : Request) : Except String Response :=
  if log.all (fun e => match e with
      | .Do _ _ => false
      | _ => true) then
    .ok { StatusCode := 200, Body := "\x7b\"embedding\":[1,2,3]\x7d" }
  else .error "context canceled"

/-- A storage that accepts everything. -/
def storeOk (_ : List (EmbeddedDocument Int)) : Except String DataRef :=
  .ok { Handle := "ref-1", Count := 0 }

/-- Three documents, the second without content and title. -/
def threeDocs : List Document :=
  [{ ID := "1", Title := "t1", Content := "c1" },
   { ID := "2", Title := "", Content := "" },
   { ID := "3", Title := "t3", Content := "" }]

/-- Three documents with text. -/
def fullDocs : List Document :=
  [{ ID := "1", Title := "t1", Content := "c1" },
   { ID := "2", Title := "t2", Content := "c2" },
   { ID := "3", Title := "t3", Content := "c3" }]

/-- Two documents without content and title. -/
def blankDocs : List Document :=
  [{ ID := "1", Title := "", Content := "" }, { ID := "2", Title := "", Content := "" }]

/-- A batch input with the default base URL and model. -/
def demoInput : BatchEmbedInput :=
  { BaseURL := "", Model := "", DocumentsRef := { Handle := "docs", Count := 3 } }

/-- The steady server with `threeDocs` loaded and a working storage. -/
def demoEnv : Env Int := fakeEnv steadyServer (.ok threeDocs) none storeOk

/-- Three documents, the second with the prompt the steady server rejects. -/
def boomDocs : List Document :=
  [{ ID := "1", Title := "t1", Content := "c1" },
   { ID := "2", Title := "t2", Content := "boom" },
   { ID := "3", Title := "t3", Content := "" }]

/-- The steady server with `boomDocs` loaded and a working storage. -/
def boomEnv : Env Int := fakeEnv steadyServer (.ok boomDocs) none storeOk

/-- An environment whose loader fails. -/
def loadFailEnv : Env Int := fakeEnv steadyServer (.error "no such ref") none storeOk

/-- An environment whose storage rejects the data. -/
def storeFailEnv : Env Int :=
  fakeEnv steadyServer (.ok threeDocs) none (fun _ => .error "disk full")

/-- The steady environment around the server that sends an empty vector. -/
def emptyVectorEnv : Env Int := fakeEnv emptyVectorServer (.ok threeDocs) none storeOk

/-- A single-document input with the default base URL and model. -/
def singleInput : GenerateEmbeddingInput :=
  { BaseURL := "", Model := "", Document := { ID := "42", Title := "t", Content := "hello" } }

/-- The client that `NewClient` builds from an empty configuration. -/
def demoClient : Client := NewClient { BaseURL := "", Timeout := 0 }

/-- The environment around the server that sends an object without members. -/
def emptyObjectEnv : Env Int := fakeEnv emptyObjectServer (.ok threeDocs) none storeOk

/-- The cancelling transport with `fullDocs` loaded and a working storage. -/
def cancelEnv : Env Int := fakeEnv cancellingServer (.ok fullDocs) none storeOk

/-- A server that reports no models. -/
def noModelsServer (_ : List (Event Int)) (_ : Request) : Except String Response :=
  .ok { StatusCode := 200, Body := "\x7b\"models\":[]\x7d" }

/-- The environment around the server that reports no models. -/
def noModelsEnv : Env Int := fakeEnv noModelsServer (.ok threeDocs) none storeOk

/-- The steady server with `blankDocs` loaded and a working storage. -/
def blankEnv : Env Int := fakeEnv steadyServer (.ok blankDocs) none storeOk

/-- A server that answers 503 with a well-formed embedding body. -/
def unavailableServer (_ : List (Event Int)) (_ : Request) : Except String Response :=
  .ok { StatusCode := 503, Body := "\x7b\"embedding\":[1,2,3]\x7d" }

/-- The environment around the server that answers 503. -/
def unavailableEnv : Env Int := fakeEnv unavailableServer (.ok threeDocs) none storeOk

/-! ## Vocabulary of the statements -/

/-- The text embedded for a document: `Content` if non-empty, otherwise `Title`. -/
def resolvedText (doc : Document) : String :=
  if doc.Content = "" then doc.Title else doc.Content

/-- The model name used for an input model name: the default one if it is empty. -/
def resolvedModel (model : String) : String :=
  if model = "" then defaultModel else model

/-- The client that `BatchEmbedActivity` constructs for an input. -/
def batchClient (input : BatchEmbedInput) : Client :=
  NewClient { BaseURL := input.BaseURL, Timeout := 0 }

/-- The calls of `Client.GenerateEmbedding` in a log, as (model, text). -/
def clientCalls {F : Type} (log : List (Event F)) : List (String × String) :=
  log.filterMap fun
    | .GenerateEmbedding model text => some (model, text)
    | _ => none

/-- The requests handed to the HTTP transport in a log. -/
def exchanges {F : Type} (log : List (Event F)) : List Request :=
  log.filterMap fun
    | .Do _ req => some req
    | _ => none

/-- The sequences handed to `StoreJSON` in a log. -/
def persisted {F : Type} (log : List (Event F)) : List (List (EmbeddedDocument F)) :=
  log.filterMap fun
    | .StoreJSON _ data => some data
    | _ => none

/-- The loop state of `BatchEmbedActivity` when it reaches `StoreJSON`, for
loaded documents `docs`. -/
def BatchEmbedActivity.atStore {F : Type} (env : Env F) (log : List (Event F))
    (input : BatchEmbedInput) (docs : List Document) : LoopState F :=
  BatchEmbedActivity.loop env (batchClient input) (resolvedModel input.Model)
    { embeddings := [], failed := 0,
      log := log ++ [Event.LoadDocuments input.DocumentsRef] ++ [Event.GetStorage] } docs

/-- The transport answers a request the same way whatever happened before. -/
def HistoryFree {F : Type} (env : Env F) : Prop :=
  ∀ (log log' : List (Event F)) (hc : HTTPClient) (req : Request),
    env.Do log hc req = env.Do log' hc req

/-- The successes the loop collects on `docs` alone, started from an empty log. -/
def successes {F : Type} (env : Env F) (client : Client) (model : String)
    (docs : List Document) : List (EmbeddedDocument F) :=
  (BatchEmbedActivity.loop env client model { embeddings := [], failed := 0, log := [] }
    docs).embeddings

/-- The failures the loop counts on `docs` alone, started from an empty log. -/
def failures {F : Type} (env : Env F) (client : Client) (model : String)
    (docs : List Document) : Nat :=
  (BatchEmbedActivity.loop env client model { embeddings := [], failed := 0, log := [] }
    docs).failed

/-- The log when the loop, started with log `log`, reaches document `i` of `docs`. -/
def logBefore {F : Type} (env : Env F) (client : Client) (model : String)
    (log : List (Event F)) (docs : List Document) (i : Nat) : List (Event F) :=
  (BatchEmbedActivity.loop env client model { embeddings := [], failed := 0, log := log }
    (docs.take i)).log

/-- What document `i` of `docs` contributes to the success sequence: nothing
if its resolved text is empty or the call made for it fails, otherwise the
document with the vector that call returned. -/
def keptAt {F : Type} (env : Env F) (client : Client) (model : String)
    (log : List (Event F)) (docs : List Document) (i : Nat) : Option (EmbeddedDocument F) :=
  match docs[i]? with
  | none => none
  | some doc =>
    if resolvedText doc = "" then none
    else
      match (client.GenerateEmbedding env (logBefore env client model log docs i) model
          (resolvedText doc)).1 with
      | (_, some _) => none
      | (v, none) => some { Document := doc, Embedding := v, Dimensions := v.length }

/-- What a document contributes to the success sequence when the client
answers independently of the history: nothing if its resolved text is empty
or its call fails, otherwise the document with the vector the call returned. -/
def keptOf {F : Type} (env : Env F) (client : Client) (model : String)
    (doc : Document) : Option (EmbeddedDocument F) :=
  if resolvedText doc = "" then none
  else
    match (client.GenerateEmbedding env [] model (resolvedText doc)).1 with
    | (_, some _) => none
    | (v, none) => some { Document := doc, Embedding := v, Dimensions := v.length }

/-! ## The client call -/

section Lemmas
variable {F : Type}

theorem GenerateEmbedding_clientCalls (env : Env F) (c : Client) (log : List (Event F))
    (model text : String) :
    clientCalls (c.GenerateEmbedding env log model text).2 = clientCalls log ++ [(model, text)] := by
  unfold Client.GenerateEmbedding
  simp only []
  repeat' split
  all_goals simp [clientCalls, List.filterMap_append]

theorem GenerateEmbedding_persisted (env : Env F) (c : Client) (log : List (Event F))
    (model text : String) :
    persisted (c.GenerateEmbedding env log model text).2 = persisted log := by
  unfold Client.GenerateEmbedding
  simp only []
  repeat' split
  all_goals simp [persisted, List.filterMap_append]

theorem GenerateEmbedding_log_extends (env : Env F) (c : Client) (log : List (Event F))
    (model text : String) :
    ∃ tail, (c.GenerateEmbedding env log model text).2 = log ++ tail := by
  unfold Client.GenerateEmbedding
  simp only []
  repeat' split
  all_goals first
    | exact ⟨_, rfl⟩
    | exact ⟨_, List.append_assoc _ _ _⟩

theorem GenerateEmbedding_historyFree (env : Env F) (hfree : HistoryFree env) (c : Client)
    (log log' : List (Event F)) (model text : String) :
    (c.GenerateEmbedding env log model text).1 = (c.GenerateEmbedding env log' model text).1 := by
  unfold Client.GenerateEmbedding
  simp only []
  have h := fun req => hfree (log ++ [Event.GenerateEmbedding model text])
    (log' ++ [Event.GenerateEmbedding model text]) c.httpClient req
  simp only [h]
  cases env.Marshal { Model := model, Prompt := text } with
  | error err => rfl
  | ok body =>
    simp only []
    cases env.NewRequestWithContext "POST" (c.baseURL ++ "/api/embeddings") (some body) with
    | error err => rfl
    | ok req =>
      simp only []
      cases env.Do (log' ++ [Event.GenerateEmbedding model text]) c.httpClient
          (req.HeaderSet "Content-Type" "application/json") with
      | error err => rfl
      | ok resp =>
        simp only []
        by_cases hs : resp.StatusCode ≠ StatusOK
        · rw [if_pos hs, if_pos hs]
        · rw [if_neg hs, if_neg hs]
          cases env.DecodeEmbedding resp.Body with
          | error err => rfl
          | ok result => rfl

/-! ## The loop -/

theorem body_frame (env : Env F) (client : Client) (model : String) (s : LoopState F)
    (doc : Document) :
    BatchEmbedActivity.body env client model s doc =
      { embeddings := s.embeddings ++
          (BatchEmbedActivity.body env client model
            { embeddings := [], failed := 0, log := s.log } doc).embeddings,
        failed := s.failed +
          (BatchEmbedActivity.body env client model
            { embeddings := [], failed := 0, log := s.log } doc).failed,
        log := (BatchEmbedActivity.body env client model
            { embeddings := [], failed := 0, log := s.log } doc).log } := by
  unfold BatchEmbedActivity.body
  simp only []
  generalize (if doc.Content = "" then doc.Title else doc.Content) = text
  by_cases ht : text = ""
  · simp only [ht, if_true, List.append_nil]
  · simp only [ht, if_false]
    rcases client.GenerateEmbedding env s.log model text with ⟨⟨v, _ | err⟩, log⟩
    · simp
    · simp

theorem loop_nil (env : Env F) (client : Client) (model : String) (s : LoopState F) :
    BatchEmbedActivity.loop env client model s [] = s := rfl

theorem loop_cons (env : Env F) (client : Client) (model : String) (s : LoopState F)
    (doc : Document) (docs : List Document) :
    BatchEmbedActivity.loop env client model s (doc :: docs) =
      BatchEmbedActivity.loop env client model
        (BatchEmbedActivity.body env client model s doc) docs := rfl

theorem loop_append (env : Env F) (client : Client) (model : String) (s : LoopState F)
    (xs ys : List Document) :
    BatchEmbedActivity.loop env client model s (xs ++ ys) =
      BatchEmbedActivity.loop env client model
        (BatchEmbedActivity.loop env client model s xs) ys := by
  unfold BatchEmbedActivity.loop
  exact List.foldl_append _ _ _ _

theorem loop_frame (env : Env F) (client : Client) (model : String) (docs : List Document) :
    ∀ s : LoopState F,
      BatchEmbedActivity.loop env client model s docs =
        { embeddings := s.embeddings ++
            (BatchEmbedActivity.loop env client model
              { embeddings := [], failed := 0, log := s.log } docs).embeddings,
          failed := s.failed +
            (BatchEmbedActivity.loop env client model
              { embeddings := [], failed := 0, log := s.log } docs).failed,
          log := (BatchEmbedActivity.loop env client model
              { embeddings := [], failed := 0, log := s.log } docs).log } := by
  induction docs with
  | nil => intro s; simp [loop_nil]
  | cons doc docs ih =>
    intro s
    rw [loop_cons, loop_cons, ih (BatchEmbedActivity.body env client model s doc),
      ih (BatchEmbedActivity.body env client model
        { embeddings := [], failed := 0, log := s.log } doc),
      body_frame env client model s doc]
    simp [List.append_assoc, Nat.add_assoc]

theorem body_empty (env : Env F) (client : Client) (model : String) (s : LoopState F)
    (doc : Document) (h : resolvedText doc = "") :
    BatchEmbedActivity.body env client model s doc =
      { embeddings := s.embeddings, failed := s.failed + 1, log := s.log } := by
  unfold resolvedText at h
  unfold BatchEmbedActivity.body
  simp only [h, if_true]

theorem body_fail (env : Env F) (client : Client) (model : String) (s : LoopState F)
    (doc : Document) (h : resolvedText doc ≠ "")
    (hf : (client.GenerateEmbedding env s.log model (resolvedText doc)).1.2 ≠ none) :
    BatchEmbedActivity.body env client model s doc =
      { embeddings := s.embeddings, failed := s.failed + 1,
        log := (client.GenerateEmbedding env s.log model (resolvedText doc)).2 } := by
  unfold resolvedText at h hf ⊢
  unfold BatchEmbedActivity.body
  simp only [h, if_false]
  revert hf
  rcases client.GenerateEmbedding env s.log model
    (if doc.Content = "" then doc.Title else doc.Content) with ⟨⟨v, _ | err⟩, log⟩
  · intro hf; exact absurd rfl hf
  · intro _; rfl

theorem body_ok (env : Env F) (client : Client) (model : String) (s : LoopState F)
    (doc : Document) (h : resolvedText doc ≠ "")
    (hs : (client.GenerateEmbedding env s.log model (resolvedText doc)).1.2 = none) :
    BatchEmbedActivity.body env client model s doc =
      { embeddings := s.embeddings ++
          [{ Document := doc,
             Embedding := (client.GenerateEmbedding env s.log model (resolvedText doc)).1.1,
             Dimensions :=
               (client.GenerateEmbedding env s.log model (resolvedText doc)).1.1.length }],
        failed := s.failed,
        log := (client.GenerateEmbedding env s.log model (resolvedText doc)).2 } := by
  unfold resolvedText at h hs ⊢
  unfold BatchEmbedActivity.body
  simp only [h, if_false]
  revert hs
  rcases client.GenerateEmbedding env s.log model
    (if doc.Content = "" then doc.Title else doc.Content) with ⟨⟨v, _ | err⟩, log⟩
  · intro _; rfl
  · intro hs; exact absurd hs (by simp)

theorem body_count (env : Env F) (client : Client) (model : String) (s : LoopState F)
    (doc : Document) :
    (BatchEmbedActivity.body env client model s doc).embeddings.length +
      (BatchEmbedActivity.body env client model s doc).failed =
        s.embeddings.length + s.failed + 1 := by
  by_cases h : resolvedText doc = ""
  · rw [body_empty env client model s doc h]; simp only []; omega
  · by_cases hs : (client.GenerateEmbedding env s.log model (resolvedText doc)).1.2 = none
    · rw [body_ok env client model s doc h hs]
      simp only [List.length_append, List.length_singleton]; omega
    · rw [body_fail env client model s doc h hs]; simp only []; omega

theorem loop_count (env : Env F) (client : Client) (model : String) (docs : List Document) :
    ∀ s : LoopState F,
      (BatchEmbedActivity.loop env client model s docs).embeddings.length +
        (BatchEmbedActivity.loop env client model s docs).failed =
          s.embeddings.length + s.failed + docs.length := by
  induction docs with
  | nil => intro s; simp [loop_nil]
  | cons doc docs ih =>
    intro s
    rw [loop_cons, ih, body_count, List.length_cons]
    omega

theorem body_clientCalls (env : Env F) (client : Client) (model : String) (s : LoopState F)
    (doc : Document) :
    clientCalls (BatchEmbedActivity.body env client model s doc).log =
      clientCalls s.log ++
        if resolvedText doc = "" then [] else [(model, resolvedText doc)] := by
  by_cases h : resolvedText doc = ""
  · rw [body_empty env client model s doc h]; simp [h]
  · by_cases hs : (client.GenerateEmbedding env s.log model (resolvedText doc)).1.2 = none
    · rw [body_ok env client model s doc h hs]
      simp only [h, if_false, GenerateEmbedding_clientCalls]
    · rw [body_fail env client model s doc h hs]
      simp only [h, if_false, GenerateEmbedding_clientCalls]

theorem loop_clientCalls (env : Env F) (client : Client) (model : String)
    (docs : List Document) :
    ∀ s : LoopState F,
      clientCalls (BatchEmbedActivity.loop env client model s docs).log =
        clientCalls s.log ++
          ((docs.filter fun doc => resolvedText doc ≠ "").map fun doc =>
            (model, resolvedText doc)) := by
  induction docs with
  | nil => intro s; simp [loop_nil]
  | cons doc docs ih =>
    intro s
    rw [loop_cons, ih, body_clientCalls]
    by_cases h : resolvedText doc = ""
    · simp [h]
    · simp [h]

theorem body_persisted (env : Env F) (client : Client) (model : String) (s : LoopState F)
    (doc : Document) :
    persisted (BatchEmbedActivity.body env client model s doc).log = persisted s.log := by
  by_cases h : resolvedText doc = ""
  · rw [body_empty env client model s doc h]
  · by_cases hs : (client.GenerateEmbedding env s.log model (resolvedText doc)).1.2 = none
    · rw [body_ok env client model s doc h hs]
      simp only [GenerateEmbedding_persisted]
    · rw [body_fail env client model s doc h hs]
      simp only [GenerateEmbedding_persisted]

theorem loop_persisted (env : Env F) (client : Client) (model : String)
    (docs : List Document) :
    ∀ s : LoopState F,
      persisted (BatchEmbedActivity.loop env client model s docs).log = persisted s.log := by
  induction docs with
  | nil => intro s; rfl
  | cons doc docs ih =>
    intro s
    rw [loop_cons, ih, body_persisted]

theorem loop_all_empty (env : Env F) (client : Client) (model : String)
    (docs : List Document) (hall : ∀ doc ∈ docs, resolvedText doc = "") :
    ∀ s : LoopState F,
      BatchEmbedActivity.loop env client model s docs =
        { embeddings := s.embeddings, failed := s.failed + docs.length, log := s.log } := by
  induction docs with
  | nil => intro s; rfl
  | cons doc docs ih =>
    intro s
    rw [loop_cons, body_empty env client model s doc (hall doc (List.mem_cons_self _ _)),
      ih (fun d hd => hall d (List.mem_cons_of_mem _ hd))]
    simp only [List.length_cons, LoopState.mk.injEq, true_and, and_true]
    omega

theorem body_dimensions (env : Env F) (client : Client) (model : String) (s : LoopState F)
    (doc : Document) (hs : ∀ e ∈ s.embeddings, e.Dimensions = e.Embedding.length) :
    ∀ e ∈ (BatchEmbedActivity.body env client model s doc).embeddings,
      e.Dimensions = e.Embedding.length := by
  by_cases h : resolvedText doc = ""
  · rw [body_empty env client model s doc h]; exact hs
  · by_cases hc : (client.GenerateEmbedding env s.log model (resolvedText doc)).1.2 = none
    · rw [body_ok env client model s doc h hc]
      intro e he
      simp only [List.mem_append, List.mem_singleton] at he
      rcases he with he | he
      · exact hs e he
      · rw [he]
    · rw [body_fail env client model s doc h hc]; exact hs

theorem loop_dimensions (env : Env F) (client : Client) (model : String)
    (docs : List Document) :
    ∀ s : LoopState F, (∀ e ∈ s.embeddings, e.Dimensions = e.Embedding.length) →
      ∀ e ∈ (BatchEmbedActivity.loop env client model s docs).embeddings,
        e.Dimensions = e.Embedding.length := by
  induction docs with
  | nil => intro s hs; exact hs
  | cons doc docs ih =>
    intro s hs
    rw [loop_cons]
    exact ih _ (body_dimensions env client model s doc hs)

theorem loop_sublist (env : Env F) (client : Client) (model : String)
    (docs : List Document) :
    ∀ log : List (Event F),
      ((BatchEmbedActivity.loop env client model
        { embeddings := [], failed := 0, log := log } docs).embeddings.map
          fun e => e.Document).Sublist docs := by
  induction docs with
  | nil => intro log; exact List.Sublist.slnil
  | cons doc docs ih =>
    intro log
    rw [loop_cons, loop_frame]
    by_cases h : resolvedText doc = ""
    · rw [body_empty env client model _ doc h]
      exact List.Sublist.cons _ (ih _)
    · by_cases hc : (client.GenerateEmbedding env log model (resolvedText doc)).1.2 = none
      · rw [body_ok env client model _ doc h hc]
        simp only [List.nil_append, List.singleton_append, List.map_cons]
        exact List.Sublist.cons₂ _ (ih _)
      · rw [body_fail env client model _ doc h hc]
        exact List.Sublist.cons _ (ih _)

theorem body_keptAt (env : Env F) (client : Client) (model : String) (log : List (Event F))
    (xs : List Document) (doc : Document) :
    (BatchEmbedActivity.body env client model
      { embeddings := [], failed := 0,
        log := (BatchEmbedActivity.loop env client model
          { embeddings := [], failed := 0, log := log } xs).log } doc).embeddings =
      (keptAt env client model log (xs ++ [doc]) xs.length).toList := by
  have hget : (xs ++ [doc])[xs.length]? = some doc := by simp
  unfold keptAt logBefore
  rw [hget, List.take_left]
  simp only []
  generalize (BatchEmbedActivity.loop env client model
    { embeddings := [], failed := 0, log := log } xs).log = lg
  by_cases h : resolvedText doc = ""
  · rw [body_empty env client model { embeddings := [], failed := 0, log := lg } doc h]
    simp [h]
  · by_cases hc : (client.GenerateEmbedding env lg model (resolvedText doc)).1.2 = none
    · rw [body_ok env client model { embeddings := [], failed := 0, log := lg } doc h hc]
      simp only [h, if_false, List.nil_append]
      revert hc
      rcases (client.GenerateEmbedding env lg model (resolvedText doc)).1 with ⟨v, _ | err⟩
      · intro _; rfl
      · intro hc; exact absurd hc (by simp)
    · rw [body_fail env client model { embeddings := [], failed := 0, log := lg } doc h hc]
      simp only [h, if_false]
      revert hc
      rcases (client.GenerateEmbedding env lg model (resolvedText doc)).1 with ⟨v, _ | err⟩
      · intro hc; exact absurd rfl hc
      · intro _; rfl

theorem loop_keptAt (env : Env F) (client : Client) (model : String) (log : List (Event F))
    (docs : List Document) :
    (BatchEmbedActivity.loop env client model
      { embeddings := [], failed := 0, log := log } docs).embeddings =
      (List.range docs.length).filterMap (keptAt env client model log docs) := by
  induction docs using List.reverseRecOn with
  | nil => rfl
  | append_singleton xs doc ih =>
    have hold : (List.range xs.length).filterMap (keptAt env client model log (xs ++ [doc])) =
        (List.range xs.length).filterMap (keptAt env client model log xs) := by
      apply List.filterMap_congr
      intro i hi
      have hi' : i < xs.length := List.mem_range.mp hi
      unfold keptAt logBefore
      rw [List.getElem?_append_left hi', List.take_append_of_le_length (Nat.le_of_lt hi')]
    rw [loop_append, loop_cons, loop_nil, body_frame, body_keptAt, List.length_append,
      List.length_singleton, List.range_succ, List.filterMap_append, hold, ← ih]
    simp only [List.filterMap_cons, List.filterMap_nil]
    cases keptAt env client model log (xs ++ [doc]) xs.length <;> rfl

theorem loop_historyFree (env : Env F) (hfree : HistoryFree env) (client : Client)
    (model : String) (docs : List Document) :
    ∀ log log' : List (Event F),
      (BatchEmbedActivity.loop env client model
        { embeddings := [], failed := 0, log := log } docs).embeddings =
      (BatchEmbedActivity.loop env client model
        { embeddings := [], failed := 0, log := log' } docs).embeddings ∧
      (BatchEmbedActivity.loop env client model
        { embeddings := [], failed := 0, log := log } docs).failed =
      (BatchEmbedActivity.loop env client model
        { embeddings := [], failed := 0, log := log' } docs).failed := by
  induction docs with
  | nil => intro log log'; exact ⟨rfl, rfl⟩
  | cons doc docs ih =>
    intro log log'
    rw [loop_cons, loop_cons, loop_frame env client model docs
      (BatchEmbedActivity.body env client model _ doc),
      loop_frame env client model docs
      (BatchEmbedActivity.body env client model
        { embeddings := [], failed := 0, log := log' } doc)]
    simp only []
    have hres := GenerateEmbedding_historyFree env hfree client log log' model
      (resolvedText doc)
    by_cases h : resolvedText doc = ""
    · rw [body_empty env client model _ doc h, body_empty env client model _ doc h]
      simp only []
      exact ⟨by rw [(ih log log').1], by rw [(ih log log').2]⟩
    · by_cases hc : (client.GenerateEmbedding env log model (resolvedText doc)).1.2 = none
      · have hc' : (client.GenerateEmbedding env log' model (resolvedText doc)).1.2 = none := by
          rw [← hres]; exact hc
        rw [body_ok env client model _ doc h hc, body_ok env client model _ doc h hc']
        simp only [hres]
        exact ⟨by rw [(ih _ _).1], by rw [(ih _ _).2]⟩
      · have hc' : (client.GenerateEmbedding env log' model (resolvedText doc)).1.2 ≠ none := by
          rw [← hres]; exact hc
        rw [body_fail env client model _ doc h hc, body_fail env client model _ doc h hc']
        simp only []
        exact ⟨by rw [(ih _ _).1], by rw [(ih _ _).2]⟩

theorem loop_keptOf (env : Env F) (hfree : HistoryFree env) (client : Client)
    (model : String) (docs : List Document) :
    ∀ log : List (Event F),
      (BatchEmbedActivity.loop env client model
        { embeddings := [], failed := 0, log := log } docs).embeddings =
        docs.filterMap (keptOf env client model) := by
  induction docs with
  | nil => intro log; rfl
  | cons doc docs ih =>
    intro log
    rw [loop_cons, loop_frame]
    have hres := GenerateEmbedding_historyFree env hfree client log [] model (resolvedText doc)
    by_cases h : resolvedText doc = ""
    · rw [body_empty env client model { embeddings := [], failed := 0, log := log } doc h]
      simp only [List.nil_append, ih]
      rw [List.filterMap_cons]
      simp [keptOf, h]
    · by_cases hc : (client.GenerateEmbedding env log model (resolvedText doc)).1.2 = none
      · rw [body_ok env client model { embeddings := [], failed := 0, log := log } doc h hc]
        simp only [List.nil_append, ih, List.singleton_append]
        rw [List.filterMap_cons]
        rw [hres] at hc ⊢
        unfold keptOf
        simp only [h, if_false]
        revert hc
        rcases (client.GenerateEmbedding env [] model (resolvedText doc)).1 with ⟨v, _ | err⟩
        · intro _; rfl
        · intro hc; exact absurd hc (by simp)
      · rw [body_fail env client model { embeddings := [], failed := 0, log := log } doc h hc]
        simp only [List.nil_append, ih]
        rw [List.filterMap_cons]
        rw [hres] at hc
        unfold keptOf
        simp only [h, if_false]
        revert hc
        rcases (client.GenerateEmbedding env [] model (resolvedText doc)).1 with ⟨v, _ | err⟩
        · intro hc; exact absurd rfl hc
        · intro _; rfl

theorem loop_all_fail (env : Env F) (client : Client) (model : String)
    (docs : List Document) :
    ∀ s : LoopState F,
      (∀ (tail : List (Event F)) (text : String),
        (client.GenerateEmbedding env (s.log ++ tail) model text).1.2 ≠ none) →
      (BatchEmbedActivity.loop env client model s docs).embeddings = s.embeddings ∧
      (BatchEmbedActivity.loop env client model s docs).failed = s.failed + docs.length := by
  induction docs with
  | nil => intro s _; exact ⟨rfl, rfl⟩
  | cons doc docs ih =>
    intro s hall
    rw [loop_cons]
    by_cases h : resolvedText doc = ""
    · rw [body_empty env client model s doc h]
      have := ih { embeddings := s.embeddings, failed := s.failed + 1, log := s.log } hall
      refine ⟨this.1, ?_⟩
      rw [this.2, List.length_cons]
      dsimp only
      omega
    · have hc : (client.GenerateEmbedding env s.log model (resolvedText doc)).1.2 ≠ none := by
        have := hall [] (resolvedText doc)
        rwa [List.append_nil] at this
      rw [body_fail env client model s doc h hc]
      obtain ⟨tail0, htail0⟩ :=
        GenerateEmbedding_log_extends env client s.log model (resolvedText doc)
      have := ih { embeddings := s.embeddings, failed := s.failed + 1,
                   log := (client.GenerateEmbedding env s.log model (resolvedText doc)).2 }
        (by
          intro tail text
          simp only [htail0, List.append_assoc]
          exact hall (tail0 ++ tail) text)
      refine ⟨this.1, ?_⟩
      rw [this.2, List.length_cons]
      dsimp only
      omega

/-! ## The activity -/

theorem BatchEmbedActivity_loaded (env : Env F) (log : List (Event F)) (input : BatchEmbedInput)
    (docs : List Document)
    (hload : env.LoadDocuments log input.DocumentsRef = .ok docs)
    (hstorage : env.GetStorage (log ++ [Event.LoadDocuments input.DocumentsRef]) = none) :
    BatchEmbedActivity env log input =
      match env.StoreJSON (BatchEmbedActivity.atStore env log input docs).log
          env.SchemaEmbeddedDocument (BatchEmbedActivity.atStore env log input docs).embeddings with
      | .error err =>
        ((BatchEmbedOutput.zero, some (.wrap "store embeddings" (.cause err))),
          (BatchEmbedActivity.atStore env log input docs).log ++
            [Event.StoreJSON env.SchemaEmbeddedDocument
              (BatchEmbedActivity.atStore env log input docs).embeddings])
      | .ok ref =>
        (({ Ref := { ref with
              Count := (BatchEmbedActivity.atStore env log input docs).embeddings.length },
            Count := (BatchEmbedActivity.atStore env log input docs).embeddings.length,
            Failed := (BatchEmbedActivity.atStore env log input docs).failed }, none),
          (BatchEmbedActivity.atStore env log input docs).log ++
            [Event.StoreJSON env.SchemaEmbeddedDocument
              (BatchEmbedActivity.atStore env log input docs).embeddings]) := by
  unfold BatchEmbedActivity
  rw [hload]
  simp only []
  rw [hstorage]
  rfl

theorem BatchEmbedActivity_log_loaded (env : Env F) (log : List (Event F))
    (input : BatchEmbedInput) (docs : List Document)
    (hload : env.LoadDocuments log input.DocumentsRef = .ok docs)
    (hstorage : env.GetStorage (log ++ [Event.LoadDocuments input.DocumentsRef]) = none) :
    (BatchEmbedActivity env log input).2 =
      (BatchEmbedActivity.atStore env log input docs).log ++
        [Event.StoreJSON env.SchemaEmbeddedDocument
          (BatchEmbedActivity.atStore env log input docs).embeddings] := by
  rw [BatchEmbedActivity_loaded env log input docs hload hstorage]
  split <;> rfl

theorem BatchEmbedActivity_result_loaded (env : Env F) (log : List (Event F))
    (input : BatchEmbedInput) (docs : List Document)
    (hload : env.LoadDocuments log input.DocumentsRef = .ok docs)
    (hstorage : env.GetStorage (log ++ [Event.LoadDocuments input.DocumentsRef]) = none)
    (hres : (BatchEmbedActivity env log input).1.2 = none) :
    (BatchEmbedActivity env log input).1.1.Count =
        (BatchEmbedActivity.atStore env log input docs).embeddings.length ∧
      (BatchEmbedActivity env log input).1.1.Failed =
        (BatchEmbedActivity.atStore env log input docs).failed := by
  rw [BatchEmbedActivity_loaded env log input docs hload hstorage] at hres ⊢
  split at hres
  · simp at hres
  · exact ⟨rfl, rfl⟩

theorem BatchEmbedActivity_stored_ok (env : Env F) (log : List (Event F))
    (input : BatchEmbedInput) (docs : List Document) (ref : DataRef)
    (hload : env.LoadDocuments log input.DocumentsRef = .ok docs)
    (hstorage : env.GetStorage (log ++ [Event.LoadDocuments input.DocumentsRef]) = none)
    (hstore : env.StoreJSON (BatchEmbedActivity.atStore env log input docs).log
      env.SchemaEmbeddedDocument (BatchEmbedActivity.atStore env log input docs).embeddings
        = .ok ref) :
    (BatchEmbedActivity env log input).1 =
      ({ Ref := { Handle := ref.Handle,
                  Count := (BatchEmbedActivity.atStore env log input docs).embeddings.length },
         Count := (BatchEmbedActivity.atStore env log input docs).embeddings.length,
         Failed := (BatchEmbedActivity.atStore env log input docs).failed }, none) := by
  rw [BatchEmbedActivity_loaded env log input docs hload hstorage, hstore]

theorem BatchEmbedActivity_failed_early (env : Env F) (log : List (Event F))
    (input : BatchEmbedInput) (docs : List Document)
    (hload : env.LoadDocuments log input.DocumentsRef = .ok docs)
    (hres : (BatchEmbedActivity env log input).1.2 = none) :
    env.GetStorage (log ++ [Event.LoadDocuments input.DocumentsRef]) = none := by
  unfold BatchEmbedActivity at hres
  rw [hload] at hres
  simp only [] at hres
  cases hst : env.GetStorage (log ++ [Event.LoadDocuments input.DocumentsRef]) with
  | none => rfl
  | some err => rw [hst] at hres; simp at hres

theorem atStore_persisted (env : Env F) (log : List (Event F)) (input : BatchEmbedInput)
    (docs : List Document) :
    persisted (BatchEmbedActivity.atStore env log input docs).log = persisted log := by
  unfold BatchEmbedActivity.atStore
  rw [loop_persisted]
  simp [persisted, List.filterMap_append]

theorem atStore_clientCalls (env : Env F) (log : List (Event F)) (input : BatchEmbedInput)
    (docs : List Document) :
    clientCalls (BatchEmbedActivity.atStore env log input docs).log =
      clientCalls log ++
        ((docs.filter fun doc => resolvedText doc ≠ "").map fun doc =>
          (resolvedModel input.Model, resolvedText doc)) := by
  unfold BatchEmbedActivity.atStore
  rw [loop_clientCalls]
  simp [clientCalls, List.filterMap_append]

theorem foldl_append_names (models : List ModelEntry) :
    ∀ acc : List String,
      models.foldl (fun acc m => acc ++ [m.Name]) acc = acc ++ models.map fun m => m.Name := by
  induction models with
  | nil => intro acc; simp
  | cons m models ih => intro acc; simp [List.foldl_cons, ih]

theorem cancelEnv_fails_after_first (tail : List (Event Int)) (text : String) :
    ((batchClient demoInput).GenerateEmbedding cancelEnv
      ((BatchEmbedActivity.atStore cancelEnv [] demoInput
        [{ ID := "1", Title := "t1", Content := "c1" }]).log ++ tail)
      (resolvedModel demoInput.Model) text).1.2 ≠ none := by
  have hlog : (BatchEmbedActivity.atStore cancelEnv [] demoInput
      [{ ID := "1", Title := "t1", Content := "c1" }]).log =
      [Event.LoadDocuments demoInput.DocumentsRef, Event.GetStorage,
        Event.GenerateEmbedding "nomic-embed-text" "c1",
        Event.Do demoClient.httpClient
          { Method := "POST", URL := "http://localhost:11434/api/embeddings",
            Header := [("Content-Type", "application/json")],
            Body := some "\x7b\"model\":\"nomic-embed-text\",\"prompt\":\"c1\"\x7d" }] := by
    decide
  rw [hlog]
  unfold Client.GenerateEmbedding
  simp [cancelEnv, fakeEnv, marshalPlain, newRequestPlain, cancellingServer]

end Lemmas

/-! ## The claims -/

/-- C1: whenever `BatchEmbedActivity` returns a result for `N` loaded
documents, whatever the embedding client did on each call, `Count` plus
`Failed` of the result equals `N`. -/
theorem BatchEmbedActivity_count_add_failed {F : Type} (env : Env F) (log : List (Event F))
    (input : BatchEmbedInput) (docs : List Document)
    (hload : env.LoadDocuments log input.DocumentsRef = .ok docs)
    (hres : (BatchEmbedActivity env log input).1.2 = none) :
    (BatchEmbedActivity env log input).1.1.Count +
      (BatchEmbedActivity env log input).1.1.Failed = docs.length := by
  have hstorage := BatchEmbedActivity_failed_early env log input docs hload hres
  obtain ⟨hc, hf⟩ := BatchEmbedActivity_result_loaded env log input docs hload hstorage hres
  rw [hc, hf]
  unfold BatchEmbedActivity.atStore
  rw [loop_count]
  simp

/-- Witness of C1: three documents, one without text; the result has
`Count = 2`, `Failed = 1`. -/
theorem BatchEmbedActivity_count_add_failed_witness :
    demoEnv.LoadDocuments [] demoInput.DocumentsRef = .ok threeDocs ∧
    (BatchEmbedActivity demoEnv [] demoInput).1.2 = none ∧
    (BatchEmbedActivity demoEnv [] demoInput).1.1.Count = 2 ∧
    (BatchEmbedActivity demoEnv [] demoInput).1.1.Failed = 1 ∧
    (BatchEmbedActivity demoEnv [] demoInput).1.1.Count +
      (BatchEmbedActivity demoEnv [] demoInput).1.1.Failed = threeDocs.length :=
  ⟨rfl, by decide, by decide, by decide,
    BatchEmbedActivity_count_add_failed demoEnv [] demoInput threeDocs rfl (by decide)⟩

/-- C2: a document whose `Content` and `Title` are both empty leaves the log
untouched (no `GenerateEmbedding` call) and adds exactly one to `failed`; the
client calls of a batch are exactly the resolved texts of the documents with
non-empty resolved text, in input order; a batch of empty documents only makes
no client call and no HTTP exchange and returns `Count = 0`, `Failed = N`. -/
theorem BatchEmbedActivity_empty_documents_skipped {F : Type} (env : Env F)
    (log : List (Event F)) (input : BatchEmbedInput) (docs : List Document)
    (hload : env.LoadDocuments log input.DocumentsRef = .ok docs)
    (hstorage : env.GetStorage (log ++ [Event.LoadDocuments input.DocumentsRef]) = none) :
    (∀ (s : LoopState F) (doc : Document), doc.Content = "" → doc.Title = "" →
      BatchEmbedActivity.body env (batchClient input) (resolvedModel input.Model) s doc =
        { embeddings := s.embeddings, failed := s.failed + 1, log := s.log }) ∧
    clientCalls (BatchEmbedActivity env log input).2 =
      clientCalls log ++
        ((docs.filter fun doc => resolvedText doc ≠ "").map fun doc =>
          (resolvedModel input.Model, resolvedText doc)) ∧
    ((∀ doc ∈ docs, doc.Content = "" ∧ doc.Title = "") →
      clientCalls (BatchEmbedActivity env log input).2 = clientCalls log ∧
      exchanges (BatchEmbedActivity env log input).2 = exchanges log ∧
      persisted (BatchEmbedActivity env log input).2 = persisted log ++ [[]] ∧
      ((BatchEmbedActivity env log input).1.2 = none →
        (BatchEmbedActivity env log input).1.1.Count = 0 ∧
        (BatchEmbedActivity env log input).1.1.Failed = docs.length)) := by
  refine ⟨?_, ?_, ?_⟩
  · intro s doc hc ht
    exact body_empty env _ _ s doc (by unfold resolvedText; rw [hc, ht]; rfl)
  · rw [BatchEmbedActivity_log_loaded env log input docs hload hstorage]
    have := atStore_clientCalls env log input docs
    simp only [clientCalls, List.filterMap_append] at this ⊢
    rw [this]
    simp
  · intro hall
    have hall' : ∀ doc ∈ docs, resolvedText doc = "" := by
      intro doc hd
      unfold resolvedText
      rw [(hall doc hd).1, (hall doc hd).2]
      rfl
    have hat : BatchEmbedActivity.atStore env log input docs =
        { embeddings := [], failed := 0 + docs.length,
          log := log ++ [Event.LoadDocuments input.DocumentsRef] ++ [Event.GetStorage] } := by
      unfold BatchEmbedActivity.atStore
      exact loop_all_empty env _ _ docs hall' _
    refine ⟨?_, ?_, ?_, ?_⟩
    · rw [BatchEmbedActivity_log_loaded env log input docs hload hstorage, hat]
      simp [clientCalls, List.filterMap_append]
    · rw [BatchEmbedActivity_log_loaded env log input docs hload hstorage, hat]
      simp [exchanges, List.filterMap_append]
    · rw [BatchEmbedActivity_log_loaded env log input docs hload hstorage, hat]
      simp [persisted, List.filterMap_append]
    · intro hres
      obtain ⟨hc, hf⟩ := BatchEmbedActivity_result_loaded env log input docs hload hstorage hres
      rw [hc, hf, hat]
      simp

/-- Witness of C2: with `threeDocs` the two calls are for `c1` and `t3`. -/
theorem BatchEmbedActivity_empty_documents_skipped_witness :
    demoEnv.LoadDocuments [] demoInput.DocumentsRef = .ok threeDocs ∧
    demoEnv.GetStorage ([] ++ [Event.LoadDocuments demoInput.DocumentsRef]) = none ∧
    clientCalls (BatchEmbedActivity demoEnv [] demoInput).2 =
      [("nomic-embed-text", "c1"), ("nomic-embed-text", "t3")] ∧
    clientCalls (BatchEmbedActivity blankEnv [] demoInput).2 = [] ∧
    exchanges (BatchEmbedActivity blankEnv [] demoInput).2 = [] ∧
    (BatchEmbedActivity blankEnv [] demoInput).1 =
      ({ Ref := { Handle := "ref-1", Count := 0 }, Count := 0, Failed := 2 }, none) :=
  ⟨rfl, rfl,
    (BatchEmbedActivity_empty_documents_skipped demoEnv [] demoInput threeDocs rfl rfl).2.1.trans
      (by decide),
    ((BatchEmbedActivity_empty_documents_skipped blankEnv [] demoInput blankDocs rfl rfl).2.2
      (by decide)).1,
    ((BatchEmbedActivity_empty_documents_skipped blankEnv [] demoInput blankDocs rfl rfl).2.2
      (by decide)).2.1,
    by decide⟩

/-- C3: with a client whose answer depends only on the request, a failing
call for document `d` of `pre ++ d :: post` adds one to `Failed` and nothing
else: the sequence handed to `StoreJSON` is the successes of `pre` followed by
those of `post`, `Failed` is the failures of `pre`, one, and the failures of
`post`, and the activity returns a result whenever `StoreJSON` succeeds. -/
theorem BatchEmbedActivity_failed_call_absorbed {F : Type} (env : Env F)
    (hfree : HistoryFree env) (log : List (Event F)) (input : BatchEmbedInput)
    (pre post : List Document) (d : Document)
    (hload : env.LoadDocuments log input.DocumentsRef = .ok (pre ++ d :: post))
    (hstorage : env.GetStorage (log ++ [Event.LoadDocuments input.DocumentsRef]) = none)
    (htext : resolvedText d ≠ "")
    (hfail : ((batchClient input).GenerateEmbedding env [] (resolvedModel input.Model)
      (resolvedText d)).1.2 ≠ none) :
    persisted (BatchEmbedActivity env log input).2 =
      persisted log ++
        [successes env (batchClient input) (resolvedModel input.Model) pre ++
          successes env (batchClient input) (resolvedModel input.Model) post] ∧
    ((BatchEmbedActivity env log input).1.2 = none →
      (BatchEmbedActivity env log input).1.1.Count =
        (successes env (batchClient input) (resolvedModel input.Model) pre).length +
          (successes env (batchClient input) (resolvedModel input.Model) post).length ∧
      (BatchEmbedActivity env log input).1.1.Failed =
        failures env (batchClient input) (resolvedModel input.Model) pre + 1 +
          failures env (batchClient input) (resolvedModel input.Model) post) ∧
    (∀ ref : DataRef,
      env.StoreJSON (BatchEmbedActivity.atStore env log input (pre ++ d :: post)).log
        env.SchemaEmbeddedDocument
        (successes env (batchClient input) (resolvedModel input.Model) pre ++
          successes env (batchClient input) (resolvedModel input.Model) post) = .ok ref →
      (BatchEmbedActivity env log input).1.2 = none) := by
  have hat : (BatchEmbedActivity.atStore env log input (pre ++ d :: post)).embeddings =
        successes env (batchClient input) (resolvedModel input.Model) pre ++
          successes env (batchClient input) (resolvedModel input.Model) post ∧
      (BatchEmbedActivity.atStore env log input (pre ++ d :: post)).failed =
        failures env (batchClient input) (resolvedModel input.Model) pre + 1 +
          failures env (batchClient input) (resolvedModel input.Model) post := by
    unfold BatchEmbedActivity.atStore successes failures
    rw [loop_append, loop_cons]
    generalize hS : BatchEmbedActivity.loop env (batchClient input) (resolvedModel input.Model)
      { embeddings := [], failed := 0,
        log := log ++ [Event.LoadDocuments input.DocumentsRef] ++ [Event.GetStorage] } pre = S
    have hpre := loop_historyFree env hfree (batchClient input) (resolvedModel input.Model) pre
      (log ++ [Event.LoadDocuments input.DocumentsRef] ++ [Event.GetStorage]) []
    rw [hS] at hpre
    have hfail' : ((batchClient input).GenerateEmbedding env S.log (resolvedModel input.Model)
        (resolvedText d)).1.2 ≠ none := by
      rw [GenerateEmbedding_historyFree env hfree (batchClient input) S.log []]
      exact hfail
    rw [body_fail env _ _ S d htext hfail', loop_frame]
    have hpost := loop_historyFree env hfree (batchClient input) (resolvedModel input.Model) post
      ((batchClient input).GenerateEmbedding env S.log (resolvedModel input.Model)
        (resolvedText d)).2 []
    dsimp only
    rw [hpost.1, hpost.2, hpre.1, hpre.2]
    exact ⟨rfl, by omega⟩
  refine ⟨?_, ?_, ?_⟩
  · rw [BatchEmbedActivity_log_loaded env log input _ hload hstorage]
    have := atStore_persisted env log input (pre ++ d :: post)
    simp only [persisted, List.filterMap_append] at this ⊢
    rw [this, hat.1]
    simp
  · intro hres
    obtain ⟨hc, hf⟩ := BatchEmbedActivity_result_loaded env log input _ hload hstorage hres
    rw [hc, hf, hat.1, hat.2, List.length_append]
    exact ⟨rfl, rfl⟩
  · intro ref hstore
    rw [← hat.1] at hstore
    rw [BatchEmbedActivity_stored_ok env log input _ ref hload hstorage hstore]

/-- Witness of C3: the second of three documents is answered with status 500;
documents 1 and 3 are stored and the result is `Count = 2`, `Failed = 1`. -/
theorem BatchEmbedActivity_failed_call_absorbed_witness :
    persisted (BatchEmbedActivity boomEnv [] demoInput).2 =
      [[{ Document := { ID := "1", Title := "t1", Content := "c1" },
          Embedding := [1, 2, 3], Dimensions := 3 },
        { Document := { ID := "3", Title := "t3", Content := "" },
          Embedding := [1, 2, 3], Dimensions := 3 }]] ∧
    (BatchEmbedActivity boomEnv [] demoInput).1 =
      ({ Ref := { Handle := "ref-1", Count := 2 }, Count := 2, Failed := 1 }, none) :=
  ⟨(BatchEmbedActivity_failed_call_absorbed boomEnv (fun _ _ _ _ => rfl) [] demoInput
      [{ ID := "1", Title := "t1", Content := "c1" }]
      [{ ID := "3", Title := "t3", Content := "" }]
      { ID := "2", Title := "t2", Content := "boom" } rfl rfl (by decide) (by decide)).1.trans
      (by decide),
    by decide⟩

/-- C4: the sequence handed to `StoreJSON` is the input documents filtered to
those with non-empty resolved text whose call succeeded, in input order, each
with its document and the vector its call returned (`keptAt`); its documents
are a subsequence of the input, and `Count` is its length. For a client that
answers independently of the history this is `filterMap` of `keptOf` over the
input. -/
theorem BatchEmbedActivity_persists_successes_in_order {F : Type} (env : Env F)
    (log : List (Event F)) (input : BatchEmbedInput) (docs : List Document)
    (hload : env.LoadDocuments log input.DocumentsRef = .ok docs)
    (hstorage : env.GetStorage (log ++ [Event.LoadDocuments input.DocumentsRef]) = none) :
    persisted (BatchEmbedActivity env log input).2 =
      persisted log ++
        [(List.range docs.length).filterMap
          (keptAt env (batchClient input) (resolvedModel input.Model)
            (log ++ [Event.LoadDocuments input.DocumentsRef] ++ [Event.GetStorage]) docs)] ∧
    (((List.range docs.length).filterMap
        (keptAt env (batchClient input) (resolvedModel input.Model)
          (log ++ [Event.LoadDocuments input.DocumentsRef] ++ [Event.GetStorage]) docs)).map
      fun e => e.Document).Sublist docs ∧
    ((BatchEmbedActivity env log input).1.2 = none →
      (BatchEmbedActivity env log input).1.1.Count =
        ((List.range docs.length).filterMap
          (keptAt env (batchClient input) (resolvedModel input.Model)
            (log ++ [Event.LoadDocuments input.DocumentsRef] ++ [Event.GetStorage])
            docs)).length) ∧
    (HistoryFree env →
      persisted (BatchEmbedActivity env log input).2 =
        persisted log ++
          [docs.filterMap (keptOf env (batchClient input) (resolvedModel input.Model))]) := by
  have hat : (BatchEmbedActivity.atStore env log input docs).embeddings =
      (List.range docs.length).filterMap
        (keptAt env (batchClient input) (resolvedModel input.Model)
          (log ++ [Event.LoadDocuments input.DocumentsRef] ++ [Event.GetStorage]) docs) := by
    unfold BatchEmbedActivity.atStore
    exact loop_keptAt env _ _ _ docs
  refine ⟨?_, ?_, ?_, ?_⟩
  · rw [BatchEmbedActivity_log_loaded env log input docs hload hstorage]
    have := atStore_persisted env log input docs
    simp only [persisted, List.filterMap_append] at this ⊢
    rw [this, hat]
    simp
  · rw [← hat]
    unfold BatchEmbedActivity.atStore
    exact loop_sublist env _ _ docs _
  · intro hres
    rw [(BatchEmbedActivity_result_loaded env log input docs hload hstorage hres).1, hat]
  · intro hfree
    have hof : (BatchEmbedActivity.atStore env log input docs).embeddings =
        docs.filterMap (keptOf env (batchClient input) (resolvedModel input.Model)) := by
      unfold BatchEmbedActivity.atStore
      exact loop_keptOf env hfree _ _ docs _
    rw [BatchEmbedActivity_log_loaded env log input docs hload hstorage]
    have := atStore_persisted env log input docs
    simp only [persisted, List.filterMap_append] at this ⊢
    rw [this, hof]
    simp

/-- Witness of C4: of three documents the second has neither content nor
title; documents 1 and 3 are stored in that order, `Count = 2`, `Failed = 1`. -/
theorem BatchEmbedActivity_persists_successes_in_order_witness :
    persisted (BatchEmbedActivity demoEnv [] demoInput).2 =
      [[{ Document := { ID := "1", Title := "t1", Content := "c1" },
          Embedding := [1, 2, 3], Dimensions := 3 },
        { Document := { ID := "3", Title := "t3", Content := "" },
          Embedding := [1, 2, 3], Dimensions := 3 }]] ∧
    (BatchEmbedActivity demoEnv [] demoInput).1 =
      ({ Ref := { Handle := "ref-1", Count := 2 }, Count := 2, Failed := 1 }, none) :=
  ⟨(BatchEmbedActivity_persists_successes_in_order demoEnv [] demoInput threeDocs
      rfl rfl).1.trans (by decide),
    by decide⟩

/-- C5: `BatchEmbedActivity` returns an error exactly when loading, storage
acquisition or `StoreJSON` fails; the output is then the zero
`BatchEmbedOutput`; when loading fails the only event is the load itself, so
no `GenerateEmbedding` call and no HTTP exchange is made. -/
theorem BatchEmbedActivity_error_iff {F : Type} (env : Env F) (log : List (Event F))
    (input : BatchEmbedInput) :
    ((BatchEmbedActivity env log input).1.2 ≠ none ↔
      (∃ err, env.LoadDocuments log input.DocumentsRef = .error err) ∨
      (∃ docs err, env.LoadDocuments log input.DocumentsRef = .ok docs ∧
        env.GetStorage (log ++ [Event.LoadDocuments input.DocumentsRef]) = some err) ∨
      (∃ docs err, env.LoadDocuments log input.DocumentsRef = .ok docs ∧
        env.GetStorage (log ++ [Event.LoadDocuments input.DocumentsRef]) = none ∧
        env.StoreJSON (BatchEmbedActivity.atStore env log input docs).log
          env.SchemaEmbeddedDocument
          (BatchEmbedActivity.atStore env log input docs).embeddings = .error err)) ∧
    ((BatchEmbedActivity env log input).1.2 ≠ none →
      (BatchEmbedActivity env log input).1.1 =
        { Ref := { Handle := "", Count := 0 }, Count := 0, Failed := 0 }) ∧
    (∀ err, env.LoadDocuments log input.DocumentsRef = .error err →
      (BatchEmbedActivity env log input).2 = log ++ [Event.LoadDocuments input.DocumentsRef] ∧
      clientCalls (BatchEmbedActivity env log input).2 = clientCalls log ∧
      exchanges (BatchEmbedActivity env log input).2 = exchanges log) := by
  cases hload : env.LoadDocuments log input.DocumentsRef with
  | error err =>
    have hrun : BatchEmbedActivity env log input =
        ((BatchEmbedOutput.zero, some (.wrap "load documents" (.cause err))),
          log ++ [Event.LoadDocuments input.DocumentsRef]) := by
      unfold BatchEmbedActivity
      rw [hload]
    rw [hrun]
    refine ⟨⟨fun _ => Or.inl ⟨err, rfl⟩, fun _ => by simp⟩, fun _ => rfl, ?_⟩
    intro _ _
    refine ⟨rfl, ?_, ?_⟩
    · simp [clientCalls, List.filterMap_append]
    · simp [exchanges, List.filterMap_append]
  | ok docs =>
    cases hstorage : env.GetStorage (log ++ [Event.LoadDocuments input.DocumentsRef]) with
    | some err =>
      have hrun : BatchEmbedActivity env log input =
          ((BatchEmbedOutput.zero, some (.wrap "get storage" (.cause err))),
            log ++ [Event.LoadDocuments input.DocumentsRef] ++ [Event.GetStorage]) := by
        unfold BatchEmbedActivity
        rw [hload]
        simp only []
        rw [hstorage]
      rw [hrun]
      refine ⟨⟨fun _ => Or.inr (Or.inl ⟨docs, err, rfl, rfl⟩), fun _ => by simp⟩,
        fun _ => rfl, ?_⟩
      intro e he
      cases he
    | none =>
      rw [BatchEmbedActivity_loaded env log input docs hload hstorage]
      cases hstore : env.StoreJSON (BatchEmbedActivity.atStore env log input docs).log
          env.SchemaEmbeddedDocument
          (BatchEmbedActivity.atStore env log input docs).embeddings with
      | error err =>
        refine ⟨⟨fun _ => Or.inr (Or.inr ⟨docs, err, rfl, rfl, hstore⟩), fun _ => by simp⟩,
          fun _ => rfl, ?_⟩
        intro e he
        cases he
      | ok ref =>
        refine ⟨⟨fun h => absurd rfl h, ?_⟩, fun h => absurd rfl h, ?_⟩
        · rintro (⟨e, he⟩ | ⟨ds, e, _, he⟩ | ⟨ds, e, hd, _, he⟩)
          · cases he
          · cases he
          · cases hd
            rw [hstore] at he
            cases he
        · intro e he
          cases he

/-- An instance of C5: a failing loader gives the zero output, an error, and
a log that holds the load only; a failing storage write gives the zero output
and an error although two embeddings had been collected. -/
theorem BatchEmbedActivity_error_iff_witness :
    BatchEmbedActivity loadFailEnv [] demoInput =
      (({ Ref := { Handle := "", Count := 0 }, Count := 0, Failed := 0 },
        some (.wrap "load documents" (.cause "no such ref"))),
        [Event.LoadDocuments demoInput.DocumentsRef]) ∧
    (BatchEmbedActivity storeFailEnv [] demoInput).1 =
      ({ Ref := { Handle := "", Count := 0 }, Count := 0, Failed := 0 },
        some (.wrap "store embeddings" (.cause "disk full"))) ∧
    ((BatchEmbedActivity storeFailEnv [] demoInput).1.2 ≠ none →
      (BatchEmbedActivity storeFailEnv [] demoInput).1.1 =
        { Ref := { Handle := "", Count := 0 }, Count := 0, Failed := 0 }) :=
  ⟨by decide, by decide, (BatchEmbedActivity_error_iff storeFailEnv [] demoInput).2.1⟩

/-- C6: every `EmbeddedDocument` of a sequence that `BatchEmbedActivity` hands
to `StoreJSON` has `Dimensions` equal to the length of its `Embedding`; a
successful `GenerateEmbeddingActivity` returns the ID of the input document,
the vector the client returned, unchanged, and its length as `Dimensions`
(zero for the empty vector). -/
theorem embedded_dimensions_eq_length {F : Type} (env : Env F) (log : List (Event F)) :
    (∀ input : BatchEmbedInput, ∃ new : List (List (EmbeddedDocument F)),
      persisted (BatchEmbedActivity env log input).2 = persisted log ++ new ∧
      ∀ data ∈ new, ∀ e ∈ data, e.Dimensions = e.Embedding.length) ∧
    (∀ input : GenerateEmbeddingInput,
      (GenerateEmbeddingActivity env log input).1.2 = none →
        (GenerateEmbeddingActivity env log input).1.1.Dimensions =
          (GenerateEmbeddingActivity env log input).1.1.Embedding.length ∧
        (GenerateEmbeddingActivity env log input).1.1.DocumentID = input.Document.ID ∧
        ((NewClient { BaseURL := input.BaseURL, Timeout := 0 }).GenerateEmbedding env log
          (resolvedModel input.Model) (resolvedText input.Document)).1 =
            ((GenerateEmbeddingActivity env log input).1.1.Embedding, none) ∧
        ((GenerateEmbeddingActivity env log input).1.1.Embedding = [] →
          (GenerateEmbeddingActivity env log input).1.1.Dimensions = 0)) := by
  constructor
  · intro input
    cases hload : env.LoadDocuments log input.DocumentsRef with
    | error err =>
      refine ⟨[], ?_, fun _ h => absurd h (List.not_mem_nil _)⟩
      unfold BatchEmbedActivity
      rw [hload]
      simp [persisted, List.filterMap_append]
    | ok docs =>
      cases hstorage : env.GetStorage (log ++ [Event.LoadDocuments input.DocumentsRef]) with
      | some err =>
        refine ⟨[], ?_, fun _ h => absurd h (List.not_mem_nil _)⟩
        unfold BatchEmbedActivity
        rw [hload]
        simp only []
        rw [hstorage]
        simp [persisted, List.filterMap_append]
      | none =>
        refine ⟨[(BatchEmbedActivity.atStore env log input docs).embeddings], ?_, ?_⟩
        · rw [BatchEmbedActivity_log_loaded env log input docs hload hstorage]
          have := atStore_persisted env log input docs
          simp only [persisted, List.filterMap_append] at this ⊢
          rw [this]
          simp
        · intro data hdata e he
          rw [List.mem_singleton] at hdata
          rw [hdata] at he
          unfold BatchEmbedActivity.atStore at he
          exact loop_dimensions env _ _ docs _ (fun _ h => absurd h (List.not_mem_nil _)) e he
  · intro input
    unfold GenerateEmbeddingActivity resolvedModel resolvedText
    simp only []
    rcases (NewClient { BaseURL := input.BaseURL, Timeout := 0 }).GenerateEmbedding env log
      (if input.Model = "" then defaultModel else input.Model)
      (if input.Document.Content = "" then input.Document.Title
        else input.Document.Content) with ⟨⟨v, _ | err⟩, lg⟩
    · intro _
      refine ⟨rfl, rfl, rfl, ?_⟩
      intro hv
      simp only [] at hv ⊢
      rw [hv]
      rfl
    · intro h
      simp at h

/-- Witness of C6: the single-document activity on a server that answers with
the vector `[1, 2, 3]`, and on one that answers with the empty vector. -/
theorem embedded_dimensions_eq_length_witness :
    (GenerateEmbeddingActivity demoEnv [] singleInput).1 =
      ({ DocumentID := "42", Embedding := [1, 2, 3], Dimensions := 3 }, none) ∧
    (GenerateEmbeddingActivity emptyVectorEnv [] singleInput).1 =
      ({ DocumentID := "42", Embedding := [], Dimensions := 0 }, none) ∧
    (GenerateEmbeddingActivity demoEnv [] singleInput).1.1.Dimensions =
      (GenerateEmbeddingActivity demoEnv [] singleInput).1.1.Embedding.length :=
  ⟨by decide, by decide,
    ((embedded_dimensions_eq_length demoEnv []).2 singleInput (by decide)).1⟩

/-- C7 as amended: after a completed HTTP exchange, a status other than 200
gives the API error with the status code and the raw body, whatever the body;
status 200 with a body the JSON decoder rejects gives a decode error; status
200 with a body the decoder accepts gives the decoded vector; and a vector is
returned in that last case only. -/
theorem GenerateEmbedding_classifies_exchange {F : Type} (env : Env F) (c : Client)
    (log : List (Event F)) (model text body : String) (req : Request) (resp : Response)
    (hmarshal : env.Marshal { Model := model, Prompt := text } = .ok body)
    (hreq : env.NewRequestWithContext "POST" (c.baseURL ++ "/api/embeddings") (some body)
      = .ok req)
    (hdo : env.Do (log ++ [Event.GenerateEmbedding model text]) c.httpClient
      (req.HeaderSet "Content-Type" "application/json") = .ok resp) :
    (resp.StatusCode ≠ 200 →
      (c.GenerateEmbedding env log model text).1 =
        ([], some (.api resp.StatusCode resp.Body))) ∧
    (Error.api resp.StatusCode resp.Body).message =
      "ollama API error: status=" ++ toString resp.StatusCode ++ " body=" ++ resp.Body ∧
    (resp.StatusCode = 200 → ∀ msg, env.DecodeEmbedding resp.Body = .error msg →
      (c.GenerateEmbedding env log model text).1 =
        ([], some (.wrap "decode response" (.cause msg)))) ∧
    (resp.StatusCode = 200 → ∀ result, env.DecodeEmbedding resp.Body = .ok result →
      (c.GenerateEmbedding env log model text).1 = (result.Embedding, none)) ∧
    ((c.GenerateEmbedding env log model text).1.2 = none →
      resp.StatusCode = 200 ∧
      ∃ result, env.DecodeEmbedding resp.Body = .ok result ∧
        (c.GenerateEmbedding env log model text).1.1 = result.Embedding) := by
  have hrun : (c.GenerateEmbedding env log model text).1 =
      if resp.StatusCode ≠ StatusOK then ([], some (.api resp.StatusCode resp.Body))
      else
        match env.DecodeEmbedding resp.Body with
        | .error err => ([], some (.wrap "decode response" (.cause err)))
        | .ok result => (result.Embedding, none) := by
    unfold Client.GenerateEmbedding
    simp only []
    rw [hmarshal]
    simp only []
    rw [hreq]
    simp only []
    rw [hdo]
    simp only []
    split
    · rfl
    · split <;> rfl
  rw [hrun]
  unfold StatusOK
  refine ⟨?_, rfl, ?_, ?_, ?_⟩
  · intro hs
    rw [if_pos hs]
  · intro hs msg hdec
    rw [if_neg (not_not.mpr hs), hdec]
  · intro hs result hdec
    rw [if_neg (not_not.mpr hs), hdec]
  · by_cases hs : resp.StatusCode = 200
    · rw [if_neg (not_not.mpr hs)]
      cases hdec : env.DecodeEmbedding resp.Body with
      | error err => intro h; simp at h
      | ok result => intro _; exact ⟨hs, result, rfl, rfl⟩
    · rw [if_pos hs]
      intro h
      simp at h

/-- Witness of C7 as amended: status 200 with the body
`{"embedding":[1,2,3]}` yields `[1, 2, 3]`; status 500 yields the API error
with code 500 and the body. -/
theorem GenerateEmbedding_classifies_exchange_witness :
    (demoClient.GenerateEmbedding demoEnv [] "nomic-embed-text" "hello").1 =
      ([1, 2, 3], none) ∧
    (demoClient.GenerateEmbedding demoEnv [] "nomic-embed-text" "boom").1 =
      ([], some (.api 500 "internal error")) ∧
    (demoClient.GenerateEmbedding unavailableEnv [] "nomic-embed-text" "hello").1 =
      ([], some (.api 503 "\x7b\"embedding\":[1,2,3]\x7d")) :=
  ⟨(GenerateEmbedding_classifies_exchange demoEnv demoClient [] "nomic-embed-text" "hello"
      "\x7b\"model\":\"nomic-embed-text\",\"prompt\":\"hello\"\x7d"
      { Method := "POST", URL := "http://localhost:11434/api/embeddings", Header := [],
        Body := some "\x7b\"model\":\"nomic-embed-text\",\"prompt\":\"hello\"\x7d" }
      { StatusCode := 200, Body := "\x7b\"embedding\":[1,2,3]\x7d" }
      rfl rfl rfl).2.2.2.1 rfl { Embedding := [1, 2, 3] } rfl,
    by decide, by decide⟩

/-- Counterexample to C7 as stated: the server answers 200 with the body
`{}`, which has no `embedding` member; the decoder accepts it as the zero
`EmbeddingResponse` and the call returns the empty vector and no error. -/
theorem GenerateEmbedding_accepts_body_without_embedding :
    emptyObjectEnv.Do [Event.GenerateEmbedding "nomic-embed-text" "hello"]
        demoClient.httpClient
        { Method := "POST", URL := "http://localhost:11434/api/embeddings",
          Header := [("Content-Type", "application/json")],
          Body := some "\x7b\"model\":\"nomic-embed-text\",\"prompt\":\"hello\"\x7d" } =
      .ok { StatusCode := 200, Body := "\x7b\x7d" } ∧
    (demoClient.GenerateEmbedding emptyObjectEnv [] "nomic-embed-text" "hello").1 =
      ([], none) ∧
    (GenerateEmbeddingActivity emptyObjectEnv [] singleInput).1 =
      ({ DocumentID := "42", Embedding := [], Dimensions := 0 }, none) := by
  refine ⟨rfl, by decide, by decide⟩

/-- C8: for a 200 response whose decoded body lists the models `m_1..m_k`,
`ListModels` returns exactly their names, as many and in the same order, and
no error; for zero models it returns the empty sequence and no error. -/
theorem ListModels_names_in_order {F : Type} (env : Env F) (c : Client)
    (log : List (Event F)) (req : Request) (resp : Response) (result : ModelsResponse)
    (hreq : env.NewRequestWithContext "GET" (c.baseURL ++ "/api/tags") none = .ok req)
    (hdo : env.Do log c.httpClient req = .ok resp)
    (hstatus : resp.StatusCode = 200)
    (hdecode : env.DecodeModels resp.Body = .ok result) :
    (c.ListModels env log).1 = (result.Models.map fun m => m.Name, none) ∧
    (c.ListModels env log).1.1.length = result.Models.length ∧
    (∀ (i : Nat) (m : ModelEntry), result.Models[i]? = some m →
      (c.ListModels env log).1.1[i]? = some m.Name) ∧
    (result.Models = [] → (c.ListModels env log).1 = ([], none)) := by
  have hrun : (c.ListModels env log).1 = (result.Models.map fun m => m.Name, none) := by
    unfold Client.ListModels
    simp only []
    rw [hreq]
    simp only []
    rw [hdo]
    simp only []
    rw [if_neg (not_not.mpr (by rw [hstatus]; rfl)), hdecode]
    simp only [foldl_append_names, List.nil_append]
  rw [hrun]
  refine ⟨rfl, by simp, ?_, ?_⟩
  · intro i m hm
    simp [List.getElem?_map, hm]
  · intro hnil
    rw [hnil]
    rfl

/-- Witness of C8: the body `{"models":[{"name":"a"},{"name":"b"}]}` yields
`["a", "b"]`; a server that reports no models yields the empty sequence and no
error. -/
theorem ListModels_names_in_order_witness :
    (demoClient.ListModels demoEnv []).1 = (["a", "b"], none) ∧
    (demoClient.ListModels noModelsEnv []).1 = ([], none) :=
  ⟨(ListModels_names_in_order demoEnv demoClient []
      { Method := "GET", URL := "http://localhost:11434/api/tags", Header := [], Body := none }
      { StatusCode := 200,
        Body := "\x7b\"models\":[\x7b\"name\":\"a\"\x7d,\x7b\"name\":\"b\"\x7d]\x7d" }
      { Models := [{ Name := "a" }, { Name := "b" }] } rfl rfl rfl rfl).1,
    by decide⟩

/-- C9: `NewClient` resolves the base URL to `http://localhost:11434` if
`BaseURL` is empty and to the given `BaseURL` unchanged otherwise, and the
timeout to 120 seconds if `Timeout` is zero and to the given `Timeout`
unchanged otherwise, negative values included; a field is replaced by its
default only if it is unset, and neither field influences the other. -/
theorem NewClient_resolves_defaults (cfg : ClientConfig) :
    (cfg.BaseURL = "" → (NewClient cfg).baseURL = "http://localhost:11434") ∧
    (cfg.BaseURL ≠ "" → (NewClient cfg).baseURL = cfg.BaseURL) ∧
    (cfg.Timeout = 0 → (NewClient cfg).httpClient.Timeout = 120 * 1000000000) ∧
    (cfg.Timeout ≠ 0 → (NewClient cfg).httpClient.Timeout = cfg.Timeout) ∧
    (cfg.Timeout < 0 → (NewClient cfg).httpClient.Timeout = cfg.Timeout) ∧
    ((NewClient cfg).baseURL ≠ cfg.BaseURL ↔ cfg.BaseURL = "") ∧
    ((NewClient cfg).httpClient.Timeout ≠ cfg.Timeout ↔ cfg.Timeout = 0) ∧
    ((NewClient cfg).baseURL = "http://localhost:11434" ↔
      cfg.BaseURL = "" ∨ cfg.BaseURL = "http://localhost:11434") ∧
    ((NewClient cfg).httpClient.Timeout = 120 * 1000000000 ↔
      cfg.Timeout = 0 ∨ cfg.Timeout = 120 * 1000000000) ∧
    (∀ timeout : Int,
      (NewClient { BaseURL := cfg.BaseURL, Timeout := timeout }).baseURL =
        (NewClient cfg).baseURL) ∧
    (∀ baseURL : String,
      (NewClient { BaseURL := baseURL, Timeout := cfg.Timeout }).httpClient.Timeout =
        (NewClient cfg).httpClient.Timeout) := by
  refine ⟨?_, ?_, ?_, ?_, ?_, ?_, ?_, ?_, ?_, fun _ => rfl, fun _ => rfl⟩
  all_goals unfold NewClient defaultBaseURL Second
  all_goals dsimp only
  · intro h; rw [if_pos h]
  · intro h; rw [if_neg h]
  · intro h; rw [if_pos h]
  · intro h; rw [if_neg h]
  · intro h; rw [if_neg (by omega)]
  · by_cases h : cfg.BaseURL = ""
    · rw [if_pos h, h]; exact ⟨fun _ => rfl, fun _ => by decide⟩
    · rw [if_neg h]; exact ⟨fun h' => absurd rfl h', fun h' => absurd h' h⟩
  · by_cases h : cfg.Timeout = 0
    · rw [if_pos h, h]; exact ⟨fun _ => rfl, fun _ => by decide⟩
    · rw [if_neg h]; exact ⟨fun h' => absurd rfl h', fun h' => absurd h' h⟩
  · by_cases h : cfg.BaseURL = ""
    · rw [if_pos h]; exact ⟨fun _ => Or.inl h, fun _ => rfl⟩
    · rw [if_neg h]; exact ⟨fun h' => Or.inr h', fun h' => h'.resolve_left h⟩
  · by_cases h : cfg.Timeout = 0
    · rw [if_pos h]; exact ⟨fun _ => Or.inl h, fun _ => rfl⟩
    · rw [if_neg h]; exact ⟨fun h' => Or.inr h', fun h' => h'.resolve_left h⟩

/-- Witness of C9: the empty configuration resolves to the default URL and
120 seconds; a given URL with a negative timeout is passed through unchanged;
each field is resolved on its own. -/
theorem NewClient_resolves_defaults_witness :
    NewClient { BaseURL := "", Timeout := 0 } =
      { baseURL := "http://localhost:11434", httpClient := { Timeout := 120000000000 } } ∧
    NewClient { BaseURL := "http://gpu:8080", Timeout := -5 } =
      { baseURL := "http://gpu:8080", httpClient := { Timeout := -5 } } ∧
    NewClient { BaseURL := "", Timeout := 30000000000 } =
      { baseURL := "http://localhost:11434", httpClient := { Timeout := 30000000000 } } ∧
    NewClient { BaseURL := "http://gpu:8080", Timeout := 0 } =
      { baseURL := "http://gpu:8080", httpClient := { Timeout := 120000000000 } } ∧
    (NewClient { BaseURL := "http://gpu:8080", Timeout := -5 }).httpClient.Timeout = -5 :=
  ⟨by decide, by decide, by decide, by decide,
    (NewClient_resolves_defaults { BaseURL := "http://gpu:8080", Timeout := -5 }).2.2.2.2.1
      (by decide)⟩

/-- C10 as amended: when from some document onward every `GenerateEmbedding`
call fails, the loop still runs over the remaining documents (a call is made
for each one with text and each is counted in `Failed`), and the successes
collected before are what is handed to `StoreJSON`; if `StoreJSON` succeeds
they are returned, with `Count` their number. -/
theorem BatchEmbedActivity_calls_failing_from_some_document {F : Type} (env : Env F)
    (log : List (Event F)) (input : BatchEmbedInput) (pre post : List Document)
    (hload : env.LoadDocuments log input.DocumentsRef = .ok (pre ++ post))
    (hstorage : env.GetStorage (log ++ [Event.LoadDocuments input.DocumentsRef]) = none)
    (hcancel : ∀ (tail : List (Event F)) (text : String),
      ((batchClient input).GenerateEmbedding env
        ((BatchEmbedActivity.atStore env log input pre).log ++ tail)
        (resolvedModel input.Model) text).1.2 ≠ none) :
    clientCalls (BatchEmbedActivity env log input).2 =
      clientCalls log ++
        (((pre ++ post).filter fun doc => resolvedText doc ≠ "").map fun doc =>
          (resolvedModel input.Model, resolvedText doc)) ∧
    persisted (BatchEmbedActivity env log input).2 =
      persisted log ++ [(BatchEmbedActivity.atStore env log input pre).embeddings] ∧
    ((BatchEmbedActivity env log input).1.2 = none →
      (BatchEmbedActivity env log input).1.1.Count =
        (BatchEmbedActivity.atStore env log input pre).embeddings.length ∧
      (BatchEmbedActivity env log input).1.1.Failed =
        (BatchEmbedActivity.atStore env log input pre).failed + post.length) ∧
    (∀ ref : DataRef,
      env.StoreJSON (BatchEmbedActivity.atStore env log input (pre ++ post)).log
        env.SchemaEmbeddedDocument
        (BatchEmbedActivity.atStore env log input pre).embeddings = .ok ref →
      (BatchEmbedActivity env log input).1 =
        ({ Ref := { Handle := ref.Handle,
                    Count := (BatchEmbedActivity.atStore env log input pre).embeddings.length },
           Count := (BatchEmbedActivity.atStore env log input pre).embeddings.length,
           Failed := (BatchEmbedActivity.atStore env log input pre).failed + post.length },
          none)) := by
  have hat : (BatchEmbedActivity.atStore env log input (pre ++ post)).embeddings =
        (BatchEmbedActivity.atStore env log input pre).embeddings ∧
      (BatchEmbedActivity.atStore env log input (pre ++ post)).failed =
        (BatchEmbedActivity.atStore env log input pre).failed + post.length := by
    have happ : BatchEmbedActivity.atStore env log input (pre ++ post) =
        BatchEmbedActivity.loop env (batchClient input) (resolvedModel input.Model)
          (BatchEmbedActivity.atStore env log input pre) post := by
      unfold BatchEmbedActivity.atStore
      exact loop_append env _ _ _ pre post
    rw [happ]
    exact loop_all_fail env _ _ post _ hcancel
  refine ⟨?_, ?_, ?_, ?_⟩
  · rw [BatchEmbedActivity_log_loaded env log input _ hload hstorage]
    have := atStore_clientCalls env log input (pre ++ post)
    simp only [clientCalls, List.filterMap_append] at this ⊢
    rw [this]
    simp
  · rw [BatchEmbedActivity_log_loaded env log input _ hload hstorage]
    have := atStore_persisted env log input (pre ++ post)
    simp only [persisted, List.filterMap_append] at this ⊢
    rw [this, hat.1]
    simp
  · intro hres
    obtain ⟨hc, hf⟩ := BatchEmbedActivity_result_loaded env log input _ hload hstorage hres
    rw [hc, hf, hat.1, hat.2]
    exact ⟨rfl, rfl⟩
  · intro ref hstore
    rw [← hat.1] at hstore
    rw [BatchEmbedActivity_stored_ok env log input _ ref hload hstorage hstore, hat.1, hat.2]

/-- Witness of C10 as amended: the transport fails from the second of three
documents on; the first document is handed to `StoreJSON`. -/
theorem BatchEmbedActivity_calls_failing_from_some_document_witness :
    persisted (BatchEmbedActivity cancelEnv [] demoInput).2 =
      [[{ Document := { ID := "1", Title := "t1", Content := "c1" },
          Embedding := [1, 2, 3], Dimensions := 3 }]] :=
  (BatchEmbedActivity_calls_failing_from_some_document cancelEnv [] demoInput
    [{ ID := "1", Title := "t1", Content := "c1" }]
    [{ ID := "2", Title := "t2", Content := "c2" }, { ID := "3", Title := "t3", Content := "c3" }]
    rfl rfl cancelEnv_fails_after_first).2.1.trans (by decide)

/-- Counterexample to C10 as stated: the context is cancelled after the first
of three exchanges. The loop is not aborted (calls are made for documents 2
and 3, both fail and are counted), the first document's embedding is handed to
`StoreJSON`, and the activity returns it with `Count = 1`, `Failed = 2` and no
error. -/
theorem BatchEmbedActivity_keeps_successes_when_calls_start_failing :
    clientCalls (BatchEmbedActivity cancelEnv [] demoInput).2 =
      [("nomic-embed-text", "c1"), ("nomic-embed-text", "c2"), ("nomic-embed-text", "c3")] ∧
    (demoClient.GenerateEmbedding cancelEnv
      (logBefore cancelEnv demoClient "nomic-embed-text"
        [Event.LoadDocuments demoInput.DocumentsRef, Event.GetStorage] fullDocs 1)
      "nomic-embed-text" "c2").1 =
        ([], some (.wrap "execute request" (.cause "context canceled"))) ∧
    (demoClient.GenerateEmbedding cancelEnv
      (logBefore cancelEnv demoClient "nomic-embed-text"
        [Event.LoadDocuments demoInput.DocumentsRef, Event.GetStorage] fullDocs 2)
      "nomic-embed-text" "c3").1 =
        ([], some (.wrap "execute request" (.cause "context canceled"))) ∧
    persisted (BatchEmbedActivity cancelEnv [] demoInput).2 =
      [[{ Document := { ID := "1", Title := "t1", Content := "c1" },
          Embedding := [1, 2, 3], Dimensions := 3 }]] ∧
    (BatchEmbedActivity cancelEnv [] demoInput).1 =
      ({ Ref := { Handle := "ref-1", Count := 1 }, Count := 1, Failed := 2 }, none) := by
  refine ⟨by decide, by decide, by decide, by decide, by decide⟩

end Ollama
